import Mathlib

/-!
# Verification of `build_temp_cache.py`

A shallow embedding of the station temperature-cache builder:

* `load_stations` — locate the `var stationData =` assignment in a text
  blob, strip the trailing `;`, and parse the remainder as JSON;
* `fetch_dv` — navigate a decoded JSON response down to
  `value.timeSeries[0].values[0].value` and extract parallel
  label/temperature sequences;
* `runMain` — the orchestration loop: eligibility filter, per-station
  fetch with exceptions caught, accumulation into the cache map and
  the no-data list;
* `writeArtifact` — compact JSON serialization of both results.

JSON values are modelled by the inductive `Json`.  Numeric literals are
carried as their decimal token (a `String`): Python's `repr` of a float
is injective and round-trips through `float`, so representing a float by
its token preserves exactly the equalities the program observes; no claim
in question distinguishes two tokens denoting the same IEEE value.
Python exceptions are modelled with `Except PyErr`.
-/

/-- A decoded JSON value.  Numbers carry their decimal token (see the
module docstring); objects are association lists in insertion order, as
produced by Python's `json.loads`. -/
inductive Json where
  | null : Json
  | jbool : Bool → Json
  | jnum : String → Json
  | jstr : String → Json
  | jarr : List Json → Json
  | jobj : List (String × Json) → Json
deriving Repr

mutual

/-- Boolean equality on `Json` (structural). -/
def Json.jeq : Json → Json → Bool
  | .null, .null => true
  | .jbool a, .jbool b => a == b
  | .jnum a, .jnum b => a == b
  | .jstr a, .jstr b => a == b
  | .jarr xs, .jarr ys => Json.jeqArr xs ys
  | .jobj kvs, .jobj lws => Json.jeqObj kvs lws
  | _, _ => false

/-- Elementwise equality of JSON arrays. -/
def Json.jeqArr : List Json → List Json → Bool
  | [], [] => true
  | x :: xs, y :: ys => Json.jeq x y && Json.jeqArr xs ys
  | _, _ => false

/-- Memberwise equality of JSON objects. -/
def Json.jeqObj : List (String × Json) → List (String × Json) → Bool
  | [], [] => true
  | (k, v) :: kvs, (l, w) :: lws => k == l && Json.jeq v w && Json.jeqObj kvs lws
  | _, _ => false

end

theorem Json.jeq_iff : ∀ a b : Json, Json.jeq a b = true ↔ a = b := by
  intro a b
  induction a, b using Json.jeq.induct <;>
    first
    | (rename_i kvs lws
       exact (Json.jeqObj kvs lws = true ↔ kvs = lws))
    | (rename_i xs ys
       exact (Json.jeqArr xs ys = true ↔ xs = ys))
    | (simp_all [Json.jeq, Json.jeqArr, Json.jeqObj]; done)
    | (rename_i x y h1 h2 h3 h4 h5 h6
       cases x <;> cases y <;>
         first
         | exact (h1 rfl rfl).elim
         | exact (h2 _ _ rfl rfl).elim
         | exact (h3 _ _ rfl rfl).elim
         | exact (h4 _ _ rfl rfl).elim
         | exact (h5 _ _ rfl rfl).elim
         | exact (h6 _ _ rfl rfl).elim
         | (simp [Json.jeq]; done))
    | (rename_i xs ys h1 h2
       cases xs <;> cases ys <;>
         first
         | exact (h1 rfl rfl).elim
         | exact (h2 _ _ _ _ rfl rfl).elim
         | (rename_i p xs' q ys'
            exact (h2 p.1 p.2 xs' q.1 q.2 ys' rfl rfl).elim)
         | (simp [Json.jeqArr, Json.jeqObj]; done))

instance : DecidableEq Json :=
  fun a b => decidable_of_iff (Json.jeq a b = true) (Json.jeq_iff a b)

deriving instance DecidableEq for Except

/-- The Python exception kinds the script can raise or catch. -/
inductive PyErr where
  | valueError : PyErr
  | typeError : PyErr
  | attributeError : PyErr
  | keyError : PyErr
  | indexError : PyErr
  | runtimeError : PyErr
  | jsonDecodeError : PyErr
  | urlError : PyErr
deriving DecidableEq, Repr

namespace Json

/-- Key lookup in a JSON object, last binding wins (as in a Python dict
built by `json.loads`, where a repeated key keeps the last value). -/
def lookupLast (kvs : List (String × Json)) (k : String) : Option Json :=
  match kvs with
  | [] => none
  | (k', v) :: rest =>
      match lookupLast rest k with
      | some r => some r
      | none => if k' = k then some v else none

/-- Whether the significand of a decimal number token is zero
(`0`, `0.00`, `-0.0e5`, …): no digit `1`-`9` before any exponent marker. -/
def numTokIsZero (tok : String) : Bool :=
  (tok.toList.takeWhile (fun c => c ≠ 'e' ∧ c ≠ 'E')).all
    (fun c => ¬ (c.isDigit ∧ c ≠ '0'))

/-- Python truthiness of a decoded JSON value: `None`, `False`, zero,
`""`, `[]` and `{}` are falsy, everything else truthy. -/
def pyTruthy : Json → Bool
  | null => false
  | jbool b => b
  | jnum tok => ¬ numTokIsZero tok
  | jstr s => s ≠ ""
  | jarr xs => !xs.isEmpty
  | jobj kvs => !kvs.isEmpty

/-- Python `x.get(k)`: on a dict, the value or `None`; on anything else
an `AttributeError`. -/
def pyGet : Json → String → Except PyErr Json
  | jobj kvs, k => .ok ((lookupLast kvs k).getD null)
  | _, _ => .error .attributeError

/-- Python `x.get(k, d)` with an explicit default. -/
def pyGetD : Json → String → Json → Except PyErr Json
  | jobj kvs, k, d => .ok ((lookupLast kvs k).getD d)
  | _, _, _ => .error .attributeError

/-- Python `x[k]` for a string key: on a dict, `KeyError` when absent;
on other values a `TypeError` (JSON arrays and strings only take
integer indices). -/
def pySubscript : Json → String → Except PyErr Json
  | jobj kvs, k =>
      match lookupLast kvs k with
      | some v => .ok v
      | none => .error .keyError
  | _, _ => .error .typeError

/-- Python `x[0]`: first element of a list, first character of a string
(as a one-character string), `KeyError` on a dict (JSON object keys are
strings), `TypeError` otherwise. -/
def pyIndex0 : Json → Except PyErr Json
  | jarr [] => .error .indexError
  | jarr (x :: _) => .ok x
  | jstr s =>
      match s.toList with
      | [] => .error .indexError
      | c :: _ => .ok (jstr (String.mk [c]))
  | jobj _ => .error .keyError
  | _ => .error .typeError

/-- Python iteration `for v in x`: the elements of a list, the
one-character strings of a string, the keys of a dict; `TypeError` on
non-iterables. -/
def pyIterate : Json → Except PyErr (List Json)
  | jarr xs => .ok xs
  | jstr s => .ok (s.toList.map (fun c => jstr (String.mk [c])))
  | jobj kvs => .ok (kvs.map (fun kv => jstr kv.1))
  | _ => .error .typeError

/-- Python slicing `x[:10]`: prefix of a string or list; `TypeError` on
anything unsliceable (`None`, numbers, booleans, dicts). -/
def pySlice10 : Json → Except PyErr Json
  | jstr s => .ok (jstr (String.mk (s.toList.take 10)))
  | jarr xs => .ok (jarr (xs.take 10))
  | _ => .error .typeError

end Json

/-! ## Python `float(...)` -/

/-- Whitespace that Python's `str.strip` and `float` ignore (the ASCII
cases; exotic unicode whitespace is not modelled). -/
def isPySpace (c : Char) : Bool :=
  c = ' ' ∨ c = '\t' ∨ c = '\n' ∨ c = '\r' ∨ c = '\x0b' ∨ c = '\x0c'

/-- Strip leading and trailing whitespace from a character list. -/
def pyStripChars (cs : List Char) : List Char :=
  ((cs.dropWhile isPySpace).reverse.dropWhile isPySpace).reverse

/-- Consume a Python `digitpart` — digits with single underscores allowed
between digits — returning how many digits were consumed and the rest. -/
def consumeDigits : List Char → Nat × List Char
  | [] => (0, [])
  | c :: cs =>
    if c.isDigit then
      match cs with
      | '_' :: c2 :: cs3 =>
        if c2.isDigit then
          let (n, r) := consumeDigits (c2 :: cs3)
          (n + 1, r)
        else (1, '_' :: c2 :: cs3)
      | ['_'] => (1, ['_'])
      | c2 :: cs3 =>
        let (n, r) := consumeDigits (c2 :: cs3)
        (n + 1, r)
      | [] => (1, [])
    else (0, c :: cs)

/-- A valid exponent suffix (`e`/`E`, optional sign, digits) or nothing. -/
def expPartOk : List Char → Bool
  | [] => true
  | c :: cs =>
    if c = 'e' ∨ c = 'E' then
      let cs' := match cs with
        | s :: rest => if s = '+' ∨ s = '-' then rest else s :: rest
        | [] => []
      let (n, r) := consumeDigits cs'
      n > 0 && r.isEmpty
    else false

/-- A valid unsigned numeric float literal: `digits [. digits] [exp]` or
`. digits [exp]`. -/
def floatNumericOk (cs : List Char) : Bool :=
  let (n1, r1) := consumeDigits cs
  match r1 with
  | '.' :: r2 =>
    let (n2, r3) := consumeDigits r2
    decide (n1 + n2 > 0) && expPartOk r3
  | _ => decide (n1 > 0) && expPartOk r1

/-- Whether Python's `float(s)` accepts the string `s`: surrounding
whitespace, an optional sign, then a numeric literal or `inf`,
`infinity` or `nan` (case-insensitive). -/
def floatAccepts (s : String) : Bool :=
  let cs := pyStripChars s.toList
  let cs := match cs with
    | '+' :: r => r
    | '-' :: r => r
    | _ => cs
  let low := cs.map Char.toLower
  low = "inf".toList || low = "infinity".toList || low = "nan".toList ||
    floatNumericOk cs

/-- Python `float(s)` on a string: `ValueError` when rejected, otherwise
the float carried as its stripped literal token (see module docstring on
the token model of floats). -/
def pyFloatOfStr (s : String) : Except PyErr String :=
  if floatAccepts s then .ok (String.mk (pyStripChars s.toList))
  else .error .valueError

/-- Python `float(x)` on a decoded JSON value: strings are parsed,
numbers pass through, booleans become `1.0`/`0.0`, everything else is a
`TypeError`. -/
def pyFloat : Json → Except PyErr String
  | .jstr s => pyFloatOfStr s
  | .jnum tok => .ok tok
  | .jbool b => .ok (if b then "1.0" else "0.0")
  | _ => .error .typeError

/-! ## `fetch_dv` (src/build_temp_cache.py lines 29-60)

The network interaction (`urllib.request.urlopen` + `json.loads` of the
body) is abstracted: `fetch_dv` here receives the decoded JSON response
body, and `runMain` below takes an oracle producing that body (or a
network/decode exception) per `(site, start, end)` triple. -/

/-- Lines 53-54: `dt = v.get("dateTime", "")` then `dt[:10]`. -/
def labelOf (v : Json) : Except PyErr Json := do
  let dt ← Json.pyGetD v "dateTime" (Json.jstr "")
  Json.pySlice10 dt

/-- Lines 46-58: the accumulation loop over the observation objects.
Note that the label is appended (line 54) before `float(val)` is
attempted (line 56); a `ValueError` there skips only the temperature,
while any other exception propagates. -/
def obsLoop : List Json → Except PyErr (List Json × List String)
  | [] => .ok ([], [])
  | v :: vs =>
    if ¬ Json.pyTruthy v then obsLoop vs
    else do
      let val ← Json.pyGet v "value"
      if val = Json.null ∨ val = Json.jstr "" ∨ val = Json.jstr " " then
        obsLoop vs
      else do
        let label ← labelOf v
        match pyFloat val with
        | .error .valueError => do
            let (ls, ts) ← obsLoop vs
            .ok (label :: ls, ts)
        | .error e => .error e
        | .ok tok => do
            let (ls, ts) ← obsLoop vs
            .ok (label :: ls, tok :: ts)

/-- Lines 41-45: defensive navigation down to the observation list.  An
empty result list stands for the early `return [], []` on line 43 (the
loop over an empty list yields exactly that pair). -/
def fetchVals (data : Json) : Except PyErr (List Json) := do
  let v1 ← Json.pyGet data "value"
  let c1 := if Json.pyTruthy v1 then v1 else Json.jobj []
  let v2 ← Json.pyGet c1 "timeSeries"
  let tsArr := if Json.pyTruthy v2 then v2 else Json.jarr []
  if ¬ Json.pyTruthy tsArr then pure []
  else do
    let t0 ← Json.pyIndex0 tsArr
    let vv ← Json.pyGet t0 "values"
    if ¬ Json.pyTruthy vv then pure []
    else do
      let t0' ← Json.pyIndex0 tsArr
      let w ← Json.pySubscript t0' "values"
      let w0 ← Json.pyIndex0 w
      let valJ ← Json.pyGet w0 "value"
      let vals := if Json.pyTruthy valJ then valJ else Json.jarr []
      Json.pyIterate vals

/-- `fetch_dv` applied to an already-decoded response body: navigation
followed by the observation loop, returning `(labels, temps)`. -/
def fetch_dv (data : Json) : Except PyErr (List Json × List String) :=
  fetchVals data >>= obsLoop

/-! ## `main` (src/build_temp_cache.py lines 63-108) -/

/-- The accumulated results: the `cache` dict (insertion-ordered, keyed
by the `site` value) and the `no_dv` list. -/
abbrev Accum := List (Json × (List Json × List String)) × List Json

/-- Python dict assignment `cache[site] = entry`: replace in place when
the key is present, append otherwise. -/
def dictInsert : List (Json × (List Json × List String)) → Json →
    (List Json × List String) → List (Json × (List Json × List String))
  | [], k, e => [(k, e)]
  | (k', e') :: rest, k, e =>
    if k' = k then (k, e) :: rest else (k', e') :: dictInsert rest k e

/-- One iteration of the `for s in stations` loop (lines 68-95): the
eligibility checks, the fetch with every exception caught (logged and
skipped), and the accumulation.  `fetchRaw` is the oracle for the remote
call: given `(site, start, end)` it yields the decoded response body or a
network/decode exception. -/
def step (fetchRaw : Json → Json → Json → Except PyErr Json)
    (acc : Accum) (s : Json) : Except PyErr Accum := do
  let site ← Json.pyGet s "site_no"
  if ¬ Json.pyTruthy site then pure acc
  else do
    let tb ← Json.pyGet s "temp_begin"
    let te ← Json.pyGet s "temp_end"
    if ¬ Json.pyTruthy tb ∨ ¬ Json.pyTruthy te then pure acc
    else do
      let lat ← Json.pyGet s "lat"
      let lon ← Json.pyGet s "lon"
      if lat = Json.null ∨ lon = Json.null then pure acc
      else do
        let start ← Json.pyGet s "temp_begin"
        let stop ← Json.pyGet s "temp_end"
        if ¬ Json.pyTruthy start ∨ ¬ Json.pyTruthy stop then pure acc
        else
          match fetchRaw site start stop >>= fetch_dv with
          | .error _ => pure acc
          | .ok (labels, temps) =>
            if ¬ labels.isEmpty then
              pure (dictInsert acc.1 site (labels, temps), acc.2)
            else
              pure (acc.1, acc.2 ++ [site])

/-- The whole `for s in stations` loop starting from empty accumulators
(lines 65-95). -/
def runMain (stations : List Json)
    (fetchRaw : Json → Json → Json → Except PyErr Json) :
    Except PyErr Accum :=
  stations.foldlM (step fetchRaw) ([], [])

/-! ## The writer (src/build_temp_cache.py lines 97-103)

`json.dump(x, f, separators=(",", ":"))`: compact JSON with the standard
string escapes.  Code points above `0xFFFF` would be emitted as
surrogate pairs by Python; here a single `\uXXXX` of the low 16 bits
stands in (no claim exercises astral-plane text). -/

/-- The hexadecimal digit for `n % 16` (lower case, as Python emits). -/
def hexDigit (n : Nat) : Char :=
  if n % 16 < 10 then Char.ofNat ('0'.toNat + n % 16)
  else Char.ofNat ('a'.toNat + (n % 16 - 10))

/-- Four hex digits of `n % 0x10000`. -/
def hex4 (n : Nat) : List Char :=
  [hexDigit (n / 4096), hexDigit (n / 256), hexDigit (n / 16), hexDigit n]

/-- How `json.dump` renders one character inside a string literal. -/
def escapeChar (c : Char) : List Char :=
  if c = '"' then ['\\', '"']
  else if c = '\\' then ['\\', '\\']
  else if c = '\n' then ['\\', 'n']
  else if c = '\t' then ['\\', 't']
  else if c = '\r' then ['\\', 'r']
  else if c = '\x08' then ['\\', 'b']
  else if c = '\x0c' then ['\\', 'f']
  else if c.toNat < 0x20 ∨ 0x7e < c.toNat then '\\' :: 'u' :: hex4 c.toNat
  else [c]

/-- A JSON string literal, quotes included. -/
def dumpStr (s : String) : List Char :=
  '"' :: (s.toList.map escapeChar).flatten ++ ['"']

mutual

/-- Compact serialization of a JSON value (`json.dump` with
`separators=(",", ":")`). -/
def dumpJson : Json → List Char
  | .null => ['n', 'u', 'l', 'l']
  | .jbool true => ['t', 'r', 'u', 'e']
  | .jbool false => ['f', 'a', 'l', 's', 'e']
  | .jnum tok => tok.toList
  | .jstr s => dumpStr s
  | .jarr [] => ['[', ']']
  | .jarr (x :: xs) => '[' :: dumpJson x ++ dumpArrTail xs
  | .jobj [] => ['{', '}']
  | .jobj ((k, v) :: kvs) => '{' :: dumpStr k ++ ':' :: dumpJson v ++ dumpObjTail kvs

/-- The remaining elements of an array literal, after the first. -/
def dumpArrTail : List Json → List Char
  | [] => [']']
  | x :: xs => ',' :: dumpJson x ++ dumpArrTail xs

/-- The remaining members of an object literal, after the first. -/
def dumpObjTail : List (String × Json) → List Char
  | [] => ['}']
  | (k, v) :: kvs => ',' :: dumpStr k ++ ':' :: dumpJson v ++ dumpObjTail kvs

end

/-- The ObservationSeries of one station as a JSON value:
`{"labels":[...],"temps":[...]}`. -/
def seriesJson (labels : List String) (temps : List String) : Json :=
  .jobj [("labels", .jarr (labels.map .jstr)),
         ("temps", .jarr (temps.map .jnum))]

/-- A string-keyed cache as a JSON object. -/
def cacheJsonOf (cache : List (String × (List String × List String))) : Json :=
  .jobj (cache.map fun kv => (kv.1, seriesJson kv.2.1 kv.2.2))

/-- Lines 97-103: the output artifact text — two compact assignments,
each terminated by `;` and a newline. -/
def writeArtifact (cacheJ noDvJ : Json) : List Char :=
  "var staticTempCache = ".toList ++ dumpJson cacheJ ++ [';', '\n'] ++
    "var staticTempNoDv = ".toList ++ dumpJson noDvJ ++ [';', '\n']

/-! ## JSON parsing (the model of `json.loads`)

A recursive-descent parser over the compact JSON emitted by the writer
(whitespace-insensitive parsing, which `json.loads` also allows, is not
modelled: no claim depends on whitespace inside a literal). -/

/-- Characters that may occur in a number token (digits, sign, dot,
exponent markers, and the letters of `Infinity`/`NaN`). -/
def numChar (c : Char) : Bool :=
  c.isDigit || c.isAlpha || c = '+' || c = '-' || c = '.'

/-- Strict JSON number grammar `-? (0|[1-9][0-9]*) (.[0-9]+)? ([eE][+-]?[0-9]+)?`. -/
def jsonNumOk (cs0 : List Char) : Bool :=
  let cs := match cs0 with
    | '-' :: r => r
    | _ => cs0
  let (ds, r1) := cs.span Char.isDigit
  let intOk := !ds.isEmpty && (ds.length == 1 || !(ds.headD '0' = '0'))
  let (fracOk, r2) := match r1 with
    | '.' :: r =>
      let (fs, rr) := r.span Char.isDigit
      (!fs.isEmpty, rr)
    | _ => (true, r1)
  let (expOk, r3) := match r2 with
    | e :: r =>
      if e = 'e' ∨ e = 'E' then
        let r' := match r with
          | s :: rest => if s = '+' ∨ s = '-' then rest else s :: rest
          | [] => []
        let (es, rr) := r'.span Char.isDigit
        (!es.isEmpty, rr)
      else (true, e :: r)
    | [] => (true, ([] : List Char))
  intOk && fracOk && expOk && r3.isEmpty

/-- A number token `json.loads` accepts: the strict grammar plus the
`Infinity`/`NaN` spellings Python's encoder emits for non-finite floats. -/
def numTokOk (s : String) : Bool :=
  jsonNumOk s.toList || s = "Infinity" || s = "-Infinity" || s = "NaN"

/-- Decode the tail of a string literal (after the opening quote) up to
its closing quote, resolving escapes; returns the content and the rest. -/
def parseStringBody : List Char → Option (List Char × List Char)
  | [] => none
  | c :: rest =>
    if c = '"' then some ([], rest)
    else if c = '\\' then
      match rest with
      | [] => none
      | 'u' :: h1 :: h2 :: h3 :: h4 :: r3 =>
        match [h1, h2, h3, h4].mapM hexVal with
        | some hs =>
          (parseStringBody r3).map fun p =>
            (Char.ofNat (hs.foldl (fun a d => 16 * a + d) 0) :: p.1, p.2)
        | none => none
      | e :: r2 =>
        match unescape e with
        | some ch => (parseStringBody r2).map fun p => (ch :: p.1, p.2)
        | none => none
    else (parseStringBody rest).map fun p => (c :: p.1, p.2)
where
  /-- Value of one hex digit. -/
  hexVal (c : Char) : Option Nat :=
    if c.isDigit then some (c.toNat - '0'.toNat)
    else if 'a' ≤ c ∧ c ≤ 'f' then some (c.toNat - 'a'.toNat + 10)
    else if 'A' ≤ c ∧ c ≤ 'F' then some (c.toNat - 'A'.toNat + 10)
    else none
  /-- The single-character escapes. -/
  unescape (e : Char) : Option Char :=
    if e = '"' then some '"'
    else if e = '\\' then some '\\'
    else if e = '/' then some '/'
    else if e = 'b' then some '\x08'
    else if e = 'f' then some '\x0c'
    else if e = 'n' then some '\n'
    else if e = 'r' then some '\r'
    else if e = 't' then some '\t'
    else none

mutual

/-- Fuel-indexed recursive-descent JSON value parser: returns the value
and the unconsumed rest. -/
def parseJ : Nat → List Char → Option (Json × List Char)
  | 0, _ => none
  | n + 1, cs =>
    match cs with
    | [] => none
    | c :: rest =>
      if c = 'n' then
        match rest with
        | 'u' :: 'l' :: 'l' :: r => some (.null, r)
        | _ => none
      else if c = 't' then
        match rest with
        | 'r' :: 'u' :: 'e' :: r => some (.jbool true, r)
        | _ => none
      else if c = 'f' then
        match rest with
        | 'a' :: 'l' :: 's' :: 'e' :: r => some (.jbool false, r)
        | _ => none
      else if c = '"' then
        (parseStringBody rest).map fun p => (.jstr (String.mk p.1), p.2)
      else if c = '[' then
        match rest with
        | ']' :: r2 => some (.jarr [], r2)
        | _ => (parseElems n rest).map fun p => (.jarr p.1, p.2)
      else if c = '{' then
        match rest with
        | '}' :: r2 => some (.jobj [], r2)
        | _ => (parseMembers n rest).map fun p => (.jobj p.1, p.2)
      else if numChar c then
        let tok := (c :: rest).takeWhile numChar
        if numTokOk (String.mk tok) then
          some (.jnum (String.mk tok), (c :: rest).dropWhile numChar)
        else none
      else none

/-- One or more comma-separated array elements up to the closing `]`. -/
def parseElems : Nat → List Char → Option (List Json × List Char)
  | 0, _ => none
  | n + 1, cs =>
    match parseJ n cs with
    | none => none
    | some (j, r1) =>
      match r1 with
      | ',' :: r2 =>
        match parseElems n r2 with
        | some (js, r3) => some (j :: js, r3)
        | none => none
      | ']' :: r2 => some ([j], r2)
      | _ => none

/-- One or more comma-separated object members up to the closing `}`. -/
def parseMembers : Nat → List Char → Option (List (String × Json) × List Char)
  | 0, _ => none
  | n + 1, cs =>
    match cs with
    | '"' :: r0 =>
      match parseStringBody r0 with
      | none => none
      | some (k, r1) =>
        match r1 with
        | ':' :: r2 =>
          match parseJ n r2 with
          | none => none
          | some (v, r3) =>
            match r3 with
            | ',' :: r4 =>
              match parseMembers n r4 with
              | some (ms, r5) => some ((String.mk k, v) :: ms, r5)
              | none => none
            | '}' :: r4 => some ([(String.mk k, v)], r4)
            | _ => none
        | _ => none
    | _ => none

end

/-- The model of `json.loads`: parse one value with ample fuel and
require the input to be fully consumed (`json.loads` rejects trailing
data). -/
def jsonLoads (cs : List Char) : Except PyErr Json :=
  match parseJ (2 * cs.length + 2) cs with
  | some (j, []) => .ok j
  | _ => .error .jsonDecodeError

/-! ## `load_stations` (src/build_temp_cache.py lines 11-26) -/

/-- Python `text.find(pat)`: index of the first occurrence, `none` when
absent. -/
def findSub (pat : List Char) (text : List Char) : Option Nat :=
  if pat.isPrefixOf text then some 0
  else
    match text with
    | [] => none
    | _ :: cs => (findSub pat cs).map (· + 1)

/-- The assignment marker the loader searches for. -/
def stationsMarker : List Char := "var stationData =".toList

/-- Lines 21-23: strip surrounding whitespace, then a single trailing
`;` (and surrounding whitespace again). -/
def stripStmt (cs : List Char) : List Char :=
  let s := pyStripChars cs
  if s.getLast? = some ';' then pyStripChars s.dropLast else s

/-- `load_stations`, over the file's text: locate the marker (a missing
marker is the `RuntimeError` of line 19, the spec's FormatError), strip
whitespace and a trailing `;`, and hand the remainder to `json.loads`
(whose failure is the spec's ParseError). -/
def load_stations (text : String) : Except PyErr Json :=
  match findSub stationsMarker text.toList with
  | none => .error .runtimeError
  | some idx =>
    match jsonLoads (stripStmt (text.toList.drop (idx + stationsMarker.length))) with
    | .ok j => .ok j
    | .error _ => .error .jsonDecodeError

/-- The marker of the artifact's first assignment. -/
def cacheMarker : List Char := "var staticTempCache = ".toList

/-- Re-parse the artifact's first assignment: the JSON literal that
starts right after the first marker (the parse stops at the statement
terminator `;`). -/
def reparseFirst (text : List Char) : Option Json :=
  match findSub cacheMarker text with
  | none => none
  | some idx =>
    (parseJ (2 * text.length + 2) (text.drop (idx + cacheMarker.length))).map
      fun p => p.1

/-! ## Concrete fixtures used by the theorems and witnesses below -/

/-- The observation `{"value":"5.5","dateTime":"2020-01-01T00:00:00"}`. -/
def obsGood : Json :=
  .jobj [("value", .jstr "5.5"), ("dateTime", .jstr "2020-01-01T00:00:00")]

/-- The observation `{"value":"","dateTime":"2020-01-02T00:00:00"}`. -/
def obsBlank : Json :=
  .jobj [("value", .jstr ""), ("dateTime", .jstr "2020-01-02T00:00:00")]

/-- An observation whose value fails float parsing:
`{"value":"abc","dateTime":"2020-01-01T00:00:00"}`. -/
def obsUnparsable : Json :=
  .jobj [("value", .jstr "abc"), ("dateTime", .jstr "2020-01-01T00:00:00")]

/-- A remote response wrapping the given observation list in the
`value.timeSeries[0].values[0].value` shape. -/
def respWith (obs : List Json) : Json :=
  .jobj [("value", .jobj [("timeSeries", .jarr [.jobj [("values",
    .jarr [.jobj [("value", .jarr obs)]])]])])]

/-- The station record of the spec's first scenario. -/
def stationX1 : Json :=
  .jobj [("site_no", .jstr "X1"), ("temp_begin", .jstr "2020-01-01"),
         ("temp_end", .jstr "2020-01-02"), ("lat", .jnum "1.0"),
         ("lon", .jnum "2.0")]

/-! ## C1 -/

/-- C1: refuted on the code.  For the response whose single observation
is `{"value":"abc","dateTime":"2020-01-01T00:00:00"}`, the value fails
float parsing, yet `fetch_dv` still appends the label (line 54 runs
before the `try` of line 55-56), returning one label and zero
temperatures — the observation is not skipped entirely and the two
sequences differ in length. -/
theorem fetch_dv_keeps_label_on_valueError :
    fetch_dv (respWith [obsUnparsable]) = .ok ([Json.jstr "2020-01-01"], []) ∧
    ([Json.jstr "2020-01-01"] : List Json).length ≠ ([] : List String).length :=
  ⟨rfl, by decide⟩

/-! ## C2 -/

/-- C2: the spec's first scenario.  One station `X1` with the two
observations `{"value":"5.5",...}` and `{"value":"",...}`: the run maps
`X1` to labels `["2020-01-01"]` and temps `[5.5]`, the no-data list is
empty, and the serialized artifact is exactly the two expected
assignments. -/
theorem scenario_X1_cache :
    runMain [stationX1] (fun _ _ _ => .ok (respWith [obsGood, obsBlank])) =
      .ok ([(Json.jstr "X1", ([Json.jstr "2020-01-01"], ["5.5"]))], []) ∧
    String.mk (writeArtifact (cacheJsonOf [("X1", (["2020-01-01"], ["5.5"]))]) (.jarr [])) =
      "var staticTempCache = \x7b\"X1\":\x7b\"labels\":[\"2020-01-01\"],\"temps\":[5.5]\x7d\x7d;\nvar staticTempNoDv = [];\n" :=
  ⟨rfl, rfl⟩

/-! ## Statement helpers -/

/-- The field of a station object: what `s.get(k)` yields on a dict
(`None` when absent). -/
def getJ (kvs : List (String × Json)) (k : String) : Json :=
  (Json.lookupLast kvs k).getD Json.null

theorem getJ_def (kvs : List (String × Json)) (k : String) :
    getJ kvs k = (Json.lookupLast kvs k).getD Json.null := rfl

theorem okBind {α β : Type} (a : α) (g : α → Except PyErr β) :
    (Except.ok a >>= g) = g a := rfl

theorem errBind {α β : Type} (e : PyErr) (g : α → Except PyErr β) :
    ((Except.error e : Except PyErr α) >>= g) = .error e := rfl

theorem pureOk {α : Type} (a : α) : (pure a : Except PyErr α) = .ok a := rfl

/-! ## C3 -/

/-- C3: a station object missing any of the five required fields is
never added to either accumulator and the oracle is never consulted —
for every oracle `f`, the loop body leaves the accumulators unchanged. -/
theorem ineligible_station_untouched (f : Json → Json → Json → Except PyErr Json)
    (acc : Accum) (kvs : List (String × Json))
    (h : Json.lookupLast kvs "site_no" = none ∨
         Json.lookupLast kvs "temp_begin" = none ∨
         Json.lookupLast kvs "temp_end" = none ∨
         Json.lookupLast kvs "lat" = none ∨
         Json.lookupLast kvs "lon" = none) :
    step f acc (.jobj kvs) = .ok acc := by
  simp only [step, Json.pyGet, okBind, pureOk]
  rcases h with h | h | h | h | h <;>
    simp only [h, Option.getD] <;>
    split_ifs <;>
    simp_all [Json.pyTruthy]

/-- Witness for C3: a station with coordinates missing is skipped. -/
theorem ineligible_station_untouched_witness :
    step (fun _ _ _ => .ok (.jobj [])) ([], [])
      (.jobj [("site_no", .jstr "X1"), ("temp_begin", .jstr "2020-01-01"),
              ("temp_end", .jstr "2020-01-02")]) = .ok ([], []) :=
  ineligible_station_untouched _ _ _ (by decide)

/-! ## C4 and C5 helper lemmas -/

theorem pyGet_obj (kvs : List (String × Json)) (k : String) :
    Json.pyGet (.jobj kvs) k = .ok (getJ kvs k) := rfl

/-- A response object with no `value` field navigates to the empty
series. -/
theorem fetch_dv_noValueField (kvs : List (String × Json))
    (h : Json.lookupLast kvs "value" = none) : fetch_dv (.jobj kvs) = .ok ([], []) := by
  simp [fetch_dv, fetchVals, Json.pyGet, okBind, h, Json.pyTruthy, obsLoop, pureOk,
    Json.lookupLast, Option.getD]

set_option maxHeartbeats 1000000 in
/-- A response whose `value` object lacks `timeSeries`, or has an empty
one, navigates to the empty series. -/
theorem fetch_dv_emptyTimeSeries (kvs vkvs : List (String × Json))
    (hv : Json.lookupLast kvs "value" = some (.jobj vkvs))
    (hts : Json.lookupLast vkvs "timeSeries" = none ∨
           Json.lookupLast vkvs "timeSeries" = some (.jarr [])) :
    fetch_dv (.jobj kvs) = .ok ([], []) := by
  have h1 : Json.pyGet (.jobj kvs) "value" = .ok (.jobj vkvs) := by
    simp [Json.pyGet, hv]
  simp only [fetch_dv, fetchVals, h1, okBind]
  by_cases hvk : vkvs = []
  · subst hvk
    simp only [Json.pyTruthy, List.isEmpty_nil, Bool.not_true, if_false]
    simp [Json.pyGet, getJ, Json.lookupLast, Json.pyTruthy, obsLoop, pureOk, okBind]
  · have htr : Json.pyTruthy (.jobj vkvs) = true := by
      simp [Json.pyTruthy, hvk]
    rw [if_pos htr, pyGet_obj, okBind]
    rcases hts with h | h <;>
      simp only [getJ, h, Option.getD] <;>
      simp [Json.pyTruthy, obsLoop, pureOk, okBind]

set_option maxHeartbeats 1000000 in
/-- A first time-series entry whose `values` field is absent or empty
navigates to the empty series. -/
theorem fetch_dv_emptyValuesField (tkvs : List (String × Json))
    (h : Json.lookupLast tkvs "values" = none ∨
         Json.lookupLast tkvs "values" = some (.jarr [])) :
    fetch_dv (.jobj [("value", .jobj [("timeSeries", .jarr [.jobj tkvs])])]) =
      .ok ([], []) := by
  rcases h with h | h <;>
    simp [fetch_dv, fetchVals, Json.pyGet, Json.lookupLast, Json.pyTruthy,
      Json.pyIndex0, okBind, pureOk, obsLoop, h, Option.getD]

/-- Empty navigation result gives the empty series (the early
`return [], []`). -/
theorem fetch_dv_of_fetchVals_nil (data : Json) (h : fetchVals data = .ok []) :
    fetch_dv data = .ok ([], []) := by
  simp [fetch_dv, h, okBind, obsLoop]

/-- An eligible station whose fetch succeeds with the empty series is
appended to the no-data list. -/
theorem step_empty_series_nodv (f : Json → Json → Json → Except PyErr Json)
    (acc : Accum) (kvs : List (String × Json)) (data : Json)
    (hsite : Json.pyTruthy (getJ kvs "site_no"))
    (htb : Json.pyTruthy (getJ kvs "temp_begin"))
    (hte : Json.pyTruthy (getJ kvs "temp_end"))
    (hlat : getJ kvs "lat" ≠ Json.null)
    (hlon : getJ kvs "lon" ≠ Json.null)
    (hok : f (getJ kvs "site_no") (getJ kvs "temp_begin") (getJ kvs "temp_end") = .ok data)
    (hfd : fetch_dv data = .ok ([], [])) :
    step f acc (.jobj kvs) = .ok (acc.1, acc.2 ++ [getJ kvs "site_no"]) := by
  simp only [step, Json.pyGet, okBind, pureOk, ← getJ_def]
  rw [if_neg (by simp [hsite]), if_neg (by simp [htb, hte]),
      if_neg (by simp [hlat, hlon]), if_neg (by simp [htb, hte])]
  rw [show (f (getJ kvs "site_no") (getJ kvs "temp_begin") (getJ kvs "temp_end") >>=
        fetch_dv) = .ok ([], []) by rw [hok, okBind, hfd]]
  simp

/-! ## C4 -/

/-- C4: when the nested time-series container or the inner value list is
absent or empty, `fetch_dv` returns the empty ObservationSeries (both
sequences zero-length) rather than an error — shown for each missing or
empty layer of the navigation, and in general whenever the navigation of
lines 41-45 yields no observations — and the orchestrator then appends
that station's identifier to the no-data list. -/
theorem empty_response_routed_to_noDataList :
    (∀ kvs, Json.lookupLast kvs "value" = none → fetch_dv (.jobj kvs) = .ok ([], [])) ∧
    (∀ kvs vkvs, Json.lookupLast kvs "value" = some (.jobj vkvs) →
        Json.lookupLast vkvs "timeSeries" = none ∨
          Json.lookupLast vkvs "timeSeries" = some (.jarr []) →
        fetch_dv (.jobj kvs) = .ok ([], [])) ∧
    (∀ tkvs, Json.lookupLast tkvs "values" = none ∨
        Json.lookupLast tkvs "values" = some (.jarr []) →
        fetch_dv (.jobj [("value", .jobj [("timeSeries", .jarr [.jobj tkvs])])]) =
          .ok ([], [])) ∧
    (∀ data, fetchVals data = .ok [] → fetch_dv data = .ok ([], [])) ∧
    (∀ (f : Json → Json → Json → Except PyErr Json) (acc : Accum) kvs data,
        Json.pyTruthy (getJ kvs "site_no") →
        Json.pyTruthy (getJ kvs "temp_begin") →
        Json.pyTruthy (getJ kvs "temp_end") →
        getJ kvs "lat" ≠ Json.null →
        getJ kvs "lon" ≠ Json.null →
        f (getJ kvs "site_no") (getJ kvs "temp_begin") (getJ kvs "temp_end") = .ok data →
        fetch_dv data = .ok ([], []) →
        step f acc (.jobj kvs) = .ok (acc.1, acc.2 ++ [getJ kvs "site_no"])) :=
  ⟨fetch_dv_noValueField, fetch_dv_emptyTimeSeries, fetch_dv_emptyValuesField,
   fetch_dv_of_fetchVals_nil,
   fun f acc kvs data h1 h2 h3 h4 h5 h6 h7 =>
     step_empty_series_nodv f acc kvs data h1 h2 h3 h4 h5 h6 h7⟩

/-- Witness for C4: station `X1` with the empty-object response `{}` is
routed to the no-data list. -/
theorem empty_response_routed_to_noDataList_witness :
    step (fun _ _ _ => .ok (.jobj [])) ([], [])
      (.jobj [("site_no", .jstr "X1"), ("temp_begin", .jstr "2020-01-01"),
              ("temp_end", .jstr "2020-01-02"), ("lat", .jnum "1.0"),
              ("lon", .jnum "2.0")]) = .ok ([], [.jstr "X1"]) :=
  empty_response_routed_to_noDataList.2.2.2.2 _ _ _ _
    (by decide) (by decide) (by decide) (by decide) (by decide) rfl
    (empty_response_routed_to_noDataList.1 [] rfl)

/-! ## C5 -/

/-- C5: an eligible station whose fetch raises (any exception from the
remote call or the response navigation) is skipped: the loop result over
any station list containing it equals the result with it removed — so it
lands in neither accumulator, the remaining stations are processed
unchanged, and a run that otherwise succeeds still produces its output. -/
theorem fetch_error_station_skipped
    (f : Json → Json → Json → Except PyErr Json)
    (kvs : List (String × Json)) (e : PyErr)
    (hsite : Json.pyTruthy (getJ kvs "site_no"))
    (htb : Json.pyTruthy (getJ kvs "temp_begin"))
    (hte : Json.pyTruthy (getJ kvs "temp_end"))
    (hlat : getJ kvs "lat" ≠ Json.null)
    (hlon : getJ kvs "lon" ≠ Json.null)
    (herr : (f (getJ kvs "site_no") (getJ kvs "temp_begin") (getJ kvs "temp_end") >>=
              fetch_dv) = .error e) :
    ∀ pre post acc,
      List.foldlM (step f) acc (pre ++ .jobj kvs :: post) =
        List.foldlM (step f) acc (pre ++ post) := by
  have hstep : ∀ acc, step f acc (.jobj kvs) = .ok acc := by
    intro acc
    simp only [step, Json.pyGet, okBind, pureOk, ← getJ_def]
    rw [if_neg (by simp [hsite]), if_neg (by simp [htb, hte]),
        if_neg (by simp [hlat, hlon]), if_neg (by simp [htb, hte]), herr]
  intro pre post acc
  rw [List.foldlM_append, List.foldlM_append]
  apply bind_congr
  intro b
  rw [List.foldlM_cons, hstep b, okBind]

/-- Witness for C5: a run over just station `X1` whose fetch raises a
connection error equals the run over the empty list. -/
theorem fetch_error_station_skipped_witness :
    List.foldlM (step (fun _ _ _ => .error .urlError)) (([], []) : Accum)
      [stationX1] =
    List.foldlM (step (fun _ _ _ => .error .urlError)) (([], []) : Accum) [] :=
  fetch_error_station_skipped (fun _ _ _ => .error .urlError)
    [("site_no", .jstr "X1"), ("temp_begin", .jstr "2020-01-01"),
     ("temp_end", .jstr "2020-01-02"), ("lat", .jnum "1.0"), ("lon", .jnum "2.0")]
    .urlError (by decide) (by decide) (by decide) (by decide) (by decide) rfl
    [] [] ([], [])

/-! ## C9 helper lemmas -/

/-- The observation loop over observations that all carry a `dateTime`
but whose every value fails float parsing: one label per observation,
no temperatures. -/
theorem obsLoop_all_unparsable (vs : List Json)
    (h : ∀ v ∈ vs, ∃ kvs s d, v = Json.jobj kvs ∧
        Json.lookupLast kvs "value" = some (.jstr s) ∧
        s ≠ "" ∧ s ≠ " " ∧ floatAccepts s = false ∧
        Json.lookupLast kvs "dateTime" = some (.jstr d)) :
    ∃ labels, obsLoop vs = .ok (labels, []) ∧ labels.length = vs.length := by
  induction vs with
  | nil => exact ⟨[], rfl, rfl⟩
  | cons v vs ih =>
    obtain ⟨kvs, s, d, rfl, hval, hs1, hs2, hfl, hdt⟩ := h v (by simp)
    obtain ⟨labels, hloop, hlen⟩ := ih (fun w hw => h w (by simp [hw]))
    have hne : kvs ≠ [] := by rintro rfl; simp [Json.lookupLast] at hval
    have htr : Json.pyTruthy (.jobj kvs) = true := by simp [Json.pyTruthy, hne]
    have hlab : labelOf (.jobj kvs) = .ok (.jstr (String.mk (d.toList.take 10))) := by
      simp [labelOf, Json.pyGetD, hdt, Option.getD, okBind, Json.pySlice10]
    refine ⟨.jstr (String.mk (d.toList.take 10)) :: labels, ?_, by simp [hlen]⟩
    simp only [obsLoop, htr, Bool.not_true, if_false, Json.pyGet, hval, Option.getD,
      okBind, pureOk, hlab,
      show pyFloat (.jstr s) = .error .valueError by simp [pyFloat, pyFloatOfStr, hfl],
      hloop]
    simp [hs1, hs2]

/-- An eligible station's accumulator update is decided by whether the
fetched label list is empty. -/
theorem step_dichotomy (f : Json → Json → Json → Except PyErr Json)
    (acc : Accum) (kvs : List (String × Json)) (data : Json)
    (labels : List Json) (temps : List String)
    (hsite : Json.pyTruthy (getJ kvs "site_no"))
    (htb : Json.pyTruthy (getJ kvs "temp_begin"))
    (hte : Json.pyTruthy (getJ kvs "temp_end"))
    (hlat : getJ kvs "lat" ≠ Json.null)
    (hlon : getJ kvs "lon" ≠ Json.null)
    (hok : f (getJ kvs "site_no") (getJ kvs "temp_begin") (getJ kvs "temp_end") = .ok data)
    (hfd : fetch_dv data = .ok (labels, temps)) :
    (labels ≠ [] →
      step f acc (.jobj kvs) =
        .ok (dictInsert acc.1 (getJ kvs "site_no") (labels, temps), acc.2)) ∧
    (labels = [] →
      step f acc (.jobj kvs) = .ok (acc.1, acc.2 ++ [getJ kvs "site_no"])) := by
  have hstep : step f acc (.jobj kvs) =
      (if ¬ labels.isEmpty then
        .ok (dictInsert acc.1 (getJ kvs "site_no") (labels, temps), acc.2)
      else .ok (acc.1, acc.2 ++ [getJ kvs "site_no"])) := by
    simp only [step, Json.pyGet, okBind, pureOk, ← getJ_def]
    rw [if_neg (by simp [hsite]), if_neg (by simp [htb, hte]),
        if_neg (by simp [hlat, hlon]), if_neg (by simp [htb, hte])]
    rw [show (f (getJ kvs "site_no") (getJ kvs "temp_begin") (getJ kvs "temp_end") >>=
          fetch_dv) = .ok (labels, temps) by rw [hok, okBind, hfd]]
  constructor
  · intro hne
    rw [hstep, if_pos (by simp [hne])]
  · intro hnil
    rw [hstep, if_neg (by simp [hnil])]

/-! ## C9 -/

/-- C9: membership in the cache versus the no-data list is decided
solely by non-emptiness of the returned label list (first conjunct);
and a station whose observations all carry a `dateTime` but whose every
value fails float parsing yields one label per observation and no
temperatures (second conjunct) — so such a station is recorded in the
cache with a non-empty `labels` and an empty `temps`, not in the
no-data list. -/
theorem cache_membership_by_labels :
    (∀ (f : Json → Json → Json → Except PyErr Json) (acc : Accum) kvs data
        (labels : List Json) (temps : List String),
        Json.pyTruthy (getJ kvs "site_no") →
        Json.pyTruthy (getJ kvs "temp_begin") →
        Json.pyTruthy (getJ kvs "temp_end") →
        getJ kvs "lat" ≠ Json.null →
        getJ kvs "lon" ≠ Json.null →
        f (getJ kvs "site_no") (getJ kvs "temp_begin") (getJ kvs "temp_end") = .ok data →
        fetch_dv data = .ok (labels, temps) →
        (labels ≠ [] →
          step f acc (.jobj kvs) =
            .ok (dictInsert acc.1 (getJ kvs "site_no") (labels, temps), acc.2)) ∧
        (labels = [] →
          step f acc (.jobj kvs) = .ok (acc.1, acc.2 ++ [getJ kvs "site_no"]))) ∧
    (∀ vs : List Json, (∀ v ∈ vs, ∃ kvs s d, v = Json.jobj kvs ∧
        Json.lookupLast kvs "value" = some (.jstr s) ∧
        s ≠ "" ∧ s ≠ " " ∧ floatAccepts s = false ∧
        Json.lookupLast kvs "dateTime" = some (.jstr d)) →
        ∃ labels, obsLoop vs = .ok (labels, []) ∧ labels.length = vs.length) :=
  ⟨fun f acc kvs data labels temps h1 h2 h3 h4 h5 h6 h7 =>
    step_dichotomy f acc kvs data labels temps h1 h2 h3 h4 h5 h6 h7,
   obsLoop_all_unparsable⟩

/-- Witness for C9: station `X1` whose single observation has the
unparsable value `"abc"` is recorded in the cache with one label and no
temperatures. -/
theorem cache_membership_by_labels_witness :
    step (fun _ _ _ => .ok (respWith [obsUnparsable])) ([], [])
      (.jobj [("site_no", .jstr "X1"), ("temp_begin", .jstr "2020-01-01"),
              ("temp_end", .jstr "2020-01-02"), ("lat", .jnum "1.0"),
              ("lon", .jnum "2.0")]) =
      .ok ([(Json.jstr "X1", ([Json.jstr "2020-01-01"], []))], []) :=
  (cache_membership_by_labels.1 _ _ _ _ _ _ (by decide) (by decide) (by decide)
    (by decide) (by decide) rfl
    (show fetch_dv (respWith [obsUnparsable]) =
        .ok ([Json.jstr "2020-01-01"], ([] : List String)) from rfl)).1 (by decide)

/-! ## C10 -/

/-- C10: the label of a kept observation is the first 10 characters of
its `dateTime` string; an absent `dateTime` yields the empty-string
label, and a string shorter than 10 characters passes through whole —
in each case label construction returns normally (never raises). -/
theorem label_construction (kvs : List (String × Json)) :
    (Json.lookupLast kvs "dateTime" = none → labelOf (.jobj kvs) = .ok (.jstr "")) ∧
    (∀ d, Json.lookupLast kvs "dateTime" = some (.jstr d) →
        labelOf (.jobj kvs) = .ok (.jstr (String.mk (d.toList.take 10))) ∧
        (d.toList.length ≤ 10 → labelOf (.jobj kvs) = .ok (.jstr d))) := by
  constructor
  · intro h
    simp [labelOf, Json.pyGetD, h, Option.getD, okBind, Json.pySlice10]
  · intro d h
    have h1 : labelOf (.jobj kvs) = .ok (.jstr (String.mk (d.toList.take 10))) := by
      simp [labelOf, Json.pyGetD, h, Option.getD, okBind, Json.pySlice10]
    refine ⟨h1, fun hlen => ?_⟩
    rw [h1, List.take_of_length_le hlen]
    congr 1

/-- Witness for C10: a full timestamp truncates to the date, a missing
`dateTime` yields `""`, and a short string passes through unchanged. -/
theorem label_construction_witness :
    labelOf (.jobj [("value", .jstr "1"), ("dateTime", .jstr "2020-01-01T00:00:00")]) =
      .ok (.jstr "2020-01-01") ∧
    labelOf (.jobj [("value", .jstr "1")]) = .ok (.jstr "") ∧
    labelOf (.jobj [("dateTime", .jstr "short")]) = .ok (.jstr "short") :=
  ⟨((label_construction _).2 "2020-01-01T00:00:00" (by decide)).1,
   (label_construction _).1 (by decide),
   ((label_construction _).2 "short" (by decide)).2 (by decide)⟩

/-! ## C6 -/

/-- C6: the loader fails with the FormatError (`RuntimeError`) exactly
when the assignment marker is absent from the text; when the marker is
present it strips the trailing statement terminator and parses the
remainder as JSON, returning the parsed value on success and propagating
a ParseError (`JSONDecodeError`) when the remainder is not valid JSON. -/
theorem load_stations_marker_and_parse (text : String) :
    (load_stations text = .error .runtimeError ↔
      findSub stationsMarker text.toList = none) ∧
    (∀ idx j, findSub stationsMarker text.toList = some idx →
        jsonLoads (stripStmt (text.toList.drop (idx + stationsMarker.length))) = .ok j →
        load_stations text = .ok j) ∧
    (∀ idx e, findSub stationsMarker text.toList = some idx →
        jsonLoads (stripStmt (text.toList.drop (idx + stationsMarker.length))) = .error e →
        load_stations text = .error .jsonDecodeError) := by
  refine ⟨?_, ?_, ?_⟩
  · cases h : findSub stationsMarker text.toList with
    | none =>
      have h' : findSub stationsMarker text.data = none := h
      simp [load_stations, h, h']
    | some idx =>
      have h' : findSub stationsMarker text.data = some idx := h
      simp only [load_stations, h, h']
      cases hj : jsonLoads (stripStmt (text.data.drop (idx + stationsMarker.length))) <;>
        simp [hj]
  · intro idx j hidx hj
    have h' : findSub stationsMarker text.data = some idx := hidx
    have hj' : jsonLoads (stripStmt (text.data.drop (idx + stationsMarker.length))) = .ok j := hj
    simp [load_stations, h', hj']
  · intro idx e hidx hj
    have h' : findSub stationsMarker text.data = some idx := hidx
    have hj' : jsonLoads (stripStmt (text.data.drop (idx + stationsMarker.length))) = .error e := hj
    simp [load_stations, h', hj']

/-- Witness for C6: a well-formed input parses, a marker-less input is a
FormatError, and bad JSON after the marker is a ParseError. -/
theorem load_stations_marker_and_parse_witness :
    load_stations "var stationData = [];" = .ok (.jarr []) ∧
    load_stations "no marker here" = .error .runtimeError ∧
    load_stations "var stationData = [oops];" = .error .jsonDecodeError :=
  ⟨(load_stations_marker_and_parse "var stationData = [];").2.1 0 (.jarr [])
      (by decide) (by decide),
   (load_stations_marker_and_parse "no marker here").1.mpr (by decide),
   (load_stations_marker_and_parse "var stationData = [oops];").2.2 0 .jsonDecodeError
      (by decide) (by decide)⟩

/-! ## C7 -/

/-- A second station record with the same identifier `X1` but a
different date range. -/
def stationX1b : Json :=
  .jobj [("site_no", .jstr "X1"), ("temp_begin", .jstr "2020-02-01"),
         ("temp_end", .jstr "2020-02-02"), ("lat", .jnum "1.0"),
         ("lon", .jnum "2.0")]

/-- An oracle that returns data for the first date range and an empty
response for the second. -/
def dupOracle (_site start _stop : Json) : Except PyErr Json :=
  if start = Json.jstr "2020-01-01" then .ok (respWith [obsGood]) else .ok (.jobj [])

/-- C7 counterexample: with two station records sharing the identifier
`X1` — one whose fetch has data, one whose fetch is empty — the run
ends with `X1` both a key of the cache and a member of the no-data
list, so the two are not disjoint. -/
theorem cache_noDataList_overlap_on_duplicate_sites :
    runMain [stationX1, stationX1b] dupOracle =
      .ok ([(Json.jstr "X1", ([Json.jstr "2020-01-01"], ["5.5"]))], [Json.jstr "X1"]) ∧
    ([(Json.jstr "X1", ([Json.jstr "2020-01-01"], ["5.5"]))].map Prod.fst =
      [Json.jstr "X1"]) ∧
    Json.jstr "X1" ∈ [Json.jstr "X1"] :=
  ⟨rfl, rfl, by decide⟩

/-- The truthy station identifier the loop would key on, if any
(statement helper). -/
def siteOf : Json → Option Json
  | .jobj kvs =>
    if Json.pyTruthy (getJ kvs "site_no") then some (getJ kvs "site_no") else none
  | _ => none

/-- Each loop iteration either leaves the accumulators unchanged or
touches exactly one of them, keyed by the station's truthy identifier. -/
theorem step_cases (f : Json → Json → Json → Except PyErr Json)
    (acc : Accum) (s : Json) (acc' : Accum)
    (h : step f acc s = .ok acc') :
    acc' = acc ∨
    ∃ site entry, siteOf s = some site ∧
      (acc' = (dictInsert acc.1 site entry, acc.2) ∨
       acc' = (acc.1, acc.2 ++ [site])) := by
  cases s with
  | jobj kvs =>
    simp only [step, Json.pyGet, okBind, pureOk, ← getJ_def] at h
    by_cases h1 : Json.pyTruthy (getJ kvs "site_no")
    · have hsite : siteOf (.jobj kvs) = some (getJ kvs "site_no") := by
        simp [siteOf, h1]
      rw [if_neg (by simp [h1])] at h
      split_ifs at h with h2 h3
      · exact .inl (by injection h with h; exact h.symm)
      · exact .inl (by injection h with h; exact h.symm)
      · rcases hfd : (f (getJ kvs "site_no") (getJ kvs "temp_begin") (getJ kvs "temp_end") >>=
            fetch_dv) with e | p
        · rw [hfd] at h
          exact .inl (by injection h with h; exact h.symm)
        · obtain ⟨labels, temps⟩ := p
          rw [hfd] at h
          dsimp only [] at h
          by_cases hl : labels.isEmpty
          · rw [if_neg (by simp [hl])] at h
            refine .inr ⟨getJ kvs "site_no", (labels, temps), hsite, .inr ?_⟩
            injection h with h
            exact h.symm
          · rw [if_pos (by simp [hl])] at h
            refine .inr ⟨getJ kvs "site_no", (labels, temps), hsite, .inl ?_⟩
            injection h with h
            exact h.symm
    · rw [if_pos (by simp [h1])] at h
      exact .inl (by injection h with h; exact h.symm)
  | null => exact absurd h (by simp [step, Json.pyGet, errBind])
  | jbool b => exact absurd h (by simp [step, Json.pyGet, errBind])
  | jnum t => exact absurd h (by simp [step, Json.pyGet, errBind])
  | jstr t => exact absurd h (by simp [step, Json.pyGet, errBind])
  | jarr xs => exact absurd h (by simp [step, Json.pyGet, errBind])

/-- Python dict assignment with a fresh key appends the pair. -/
theorem dictInsert_fresh (cache : List (Json × (List Json × List String)))
    (k : Json) (e : List Json × List String)
    (h : k ∉ cache.map Prod.fst) :
    dictInsert cache k e = cache ++ [(k, e)] := by
  induction cache with
  | nil => rfl
  | cons p rest ih =>
    obtain ⟨q, w⟩ := p
    simp only [List.map_cons, List.mem_cons] at h
    push_neg at h
    simp only [dictInsert, if_neg (show ¬ (q = k) from fun hc => h.1 hc.symm),
      List.cons_append, List.cons.injEq, true_and]
    exact ih h.2

theorem nodup_shuffle_insert (a b c : List Json) (s : Json)
    (h : ((a ++ b) ++ (s :: c)).Nodup) : (((a ++ [s]) ++ b) ++ c).Nodup := by
  refine (List.perm_iff_count.mpr fun x => ?_).nodup h
  simp [List.count_append, List.count_cons]
  omega

theorem nodup_shuffle_append (a b c : List Json) (s : Json)
    (h : ((a ++ b) ++ (s :: c)).Nodup) : ((a ++ (b ++ [s])) ++ c).Nodup := by
  refine (List.perm_iff_count.mpr fun x => ?_).nodup h
  simp [List.count_append, List.count_cons]

/-- Loop invariant: if the already-accumulated identifiers together with
the remaining stations' identifiers are pairwise distinct, the final
cache keys and no-data identifiers (jointly) are pairwise distinct. -/
theorem foldlM_step_nodup (f : Json → Json → Json → Except PyErr Json) :
    ∀ (stations : List Json) (acc res : Accum),
      List.foldlM (step f) acc stations = .ok res →
      ((acc.1.map Prod.fst ++ acc.2) ++ stations.filterMap siteOf).Nodup →
      (res.1.map Prod.fst ++ res.2).Nodup := by
  intro stations
  induction stations with
  | nil =>
    intro acc res h hd
    simp only [List.foldlM_nil] at h
    injection h with h
    subst h
    simpa using hd
  | cons s rest ih =>
    intro acc res h hd
    rw [List.foldlM_cons] at h
    rcases hstep : step f acc s with e | acc'
    · rw [hstep] at h
      exact absurd h (by simp [errBind])
    · rw [hstep, okBind] at h
      rcases step_cases f acc s acc' hstep with heq | ⟨site, entry, hsite, hcase⟩
      · subst heq
        apply ih acc' res h
        rcases hs : siteOf s with _ | site
        · simp only [List.filterMap_cons, hs] at hd
          exact hd
        · simp only [List.filterMap_cons, hs] at hd
          exact hd.sublist ((List.sublist_cons_self site _).append_left _)
      · simp only [List.filterMap_cons, hsite] at hd
        have hnd := List.nodup_append.mp hd
        have hsfresh : site ∉ acc.1.map Prod.fst ∧ site ∉ acc.2 := by
          have hmem : site ∈ site :: rest.filterMap siteOf := by simp
          have := fun hin => hnd.2.2 hin hmem
          constructor
          · exact fun hk => this (by simp [hk])
          · exact fun hk => this (by simp [hk])
        rcases hcase with heq | heq <;> subst heq
        · apply ih _ res h
          simp only [List.map_append, dictInsert_fresh acc.1 site entry hsfresh.1]
          exact nodup_shuffle_insert _ _ _ _ (by simpa using hd)
        · apply ih _ res h
          exact nodup_shuffle_append _ _ _ _ (by simpa using hd)

/-- C7 amended: when the stations' truthy identifiers are pairwise
distinct, the cache keys are pairwise distinct (each station added at
most once), the no-data list has no duplicates, and the two are
disjoint.  (The unamended claim — for every input station list — is
refuted by `cache_noDataList_overlap_on_duplicate_sites`.) -/
theorem cache_nodv_disjoint_of_distinct_sites
    (stations : List Json) (f : Json → Json → Json → Except PyErr Json)
    (cache : List (Json × (List Json × List String))) (nodv : List Json)
    (h : runMain stations f = .ok (cache, nodv))
    (hd : (stations.filterMap siteOf).Nodup) :
    (cache.map Prod.fst).Nodup ∧ nodv.Nodup ∧
    ∀ k ∈ cache.map Prod.fst, k ∉ nodv := by
  have hmain := foldlM_step_nodup f stations ([], []) (cache, nodv) h (by simpa using hd)
  rw [List.nodup_append] at hmain
  exact ⟨hmain.1, hmain.2.1, fun k hk hkn => hmain.2.2 hk hkn⟩

/-- Witness for C7 (amended): one station with data; the key list is
duplicate-free and disjoint from the empty no-data list. -/
theorem cache_nodv_disjoint_of_distinct_sites_witness :
    ([(Json.jstr "X1", ([Json.jstr "2020-01-01"], ["5.5"]))].map Prod.fst).Nodup ∧
    ([] : List Json).Nodup ∧
    ∀ k ∈ [(Json.jstr "X1", ([Json.jstr "2020-01-01"], ["5.5"]))].map Prod.fst,
      k ∉ ([] : List Json) :=
  cache_nodv_disjoint_of_distinct_sites [stationX1]
    (fun _ _ _ => .ok (respWith [obsGood])) _ _ rfl (by decide)

/-! ## C8: round trip of the artifact's first assignment

The round-trip statement is proved for *plain* caches: strings whose
characters need no JSON escaping (printable ASCII without `"` or `\`)
and number tokens in the grammar `json` emits and accepts.  Every cache
the program builds from its own float formatting satisfies this; the
escape machinery of `escapeChar`/`parseStringBody` is exercised only in
its identity fragment here. -/

/-- A character that `json.dump` emits verbatim inside a string
literal. -/
def plainChar (c : Char) : Bool :=
  0x20 ≤ c.toNat && c.toNat ≤ 0x7e && c ≠ '"' && c ≠ '\\'

/-- A string of plain characters. -/
def plainStr (s : String) : Bool :=
  s.toList.all plainChar

/-- A character that can open a number token (digit, sign, or the
capitals of `Infinity`/`NaN`). -/
def numStart (c : Char) : Bool :=
  c.isDigit || c = '-' || c = 'I' || c = 'N'

/-- A number token that both serializes verbatim and lexes back:
accepted by the reader, made of number characters, and opening with a
number-start character. -/
def plainNum (tok : String) : Bool :=
  numTokOk tok && tok.toList.all numChar && numStart (tok.toList.headD ' ')

mutual

/-- A JSON value whose serialization needs no escaping (see above). -/
def plainJson : Json → Bool
  | .null => true
  | .jbool _ => true
  | .jnum tok => plainNum tok
  | .jstr s => plainStr s
  | .jarr xs => plainArr xs
  | .jobj kvs => plainObj kvs

/-- All elements plain. -/
def plainArr : List Json → Bool
  | [] => true
  | x :: xs => plainJson x && plainArr xs

/-- All keys plain strings and all values plain. -/
def plainObj : List (String × Json) → Bool
  | [] => true
  | (k, v) :: kvs => plainStr k && plainJson v && plainObj kvs

end

mutual

/-- Fuel sufficient for `parseJ` on the serialization of a value. -/
def jfuel : Json → Nat
  | .jarr xs => 1 + jfuelElems xs
  | .jobj kvs => 1 + jfuelMembers kvs
  | _ => 1

/-- Fuel sufficient for `parseElems` on serialized elements. -/
def jfuelElems : List Json → Nat
  | [] => 1
  | x :: xs => 1 + jfuel x + jfuelElems xs

/-- Fuel sufficient for `parseMembers` on serialized members. -/
def jfuelMembers : List (String × Json) → Nat
  | [] => 1
  | (_, v) :: kvs => 1 + jfuel v + jfuelMembers kvs

end

/-- The continuation after a serialized value must not begin with a
number character (else number lexing would run past the token). -/
def headSafe : List Char → Bool
  | [] => true
  | c :: _ => !numChar c

theorem escapeChar_plain (c : Char) (h : plainChar c = true) : escapeChar c = [c] := by
  simp only [plainChar, Bool.and_eq_true, decide_eq_true_eq, ne_eq,
    Bool.not_eq_true', decide_eq_false_iff_not] at h
  obtain ⟨⟨⟨h1, h2⟩, h3⟩, h4⟩ := h
  simp only [escapeChar]
  rw [if_neg h3, if_neg h4,
      if_neg (by rintro rfl; simp at h1),
      if_neg (by rintro rfl; simp at h1),
      if_neg (by rintro rfl; simp at h1),
      if_neg (by rintro rfl; simp at h1),
      if_neg (by rintro rfl; simp at h1),
      if_neg (by omega)]

theorem parseStringBody_plain (cs : List Char) (rest : List Char)
    (h : cs.all plainChar = true) :
    parseStringBody ((cs.map escapeChar).flatten ++ ('"' :: rest)) = some (cs, rest) := by
  induction cs with
  | nil =>
    rw [parseStringBody.eq_def]
    simp
  | cons c cs ih =>
    simp only [List.all_cons, Bool.and_eq_true] at h
    have hpc := h.1
    have hq : c ≠ '"' := by
      intro hc
      subst hc
      simp [plainChar] at hpc
    have hb : c ≠ '\\' := by
      intro hc
      subst hc
      simp [plainChar] at hpc
    simp only [List.map_cons, List.flatten_cons, escapeChar_plain c hpc,
      List.cons_append, List.singleton_append]
    rw [parseStringBody.eq_def]
    simp only [if_neg hq, if_neg hb, List.nil_append, ih h.2]
    rfl

theorem takeWhile_all_append (l r : List Char) (hl : l.all numChar = true)
    (hr : headSafe r = true) :
    (l ++ r).takeWhile numChar = l ∧ (l ++ r).dropWhile numChar = r := by
  induction l with
  | nil =>
    simp only [List.nil_append]
    cases r with
    | nil => exact ⟨rfl, rfl⟩
    | cons c r =>
      simp only [headSafe, Bool.not_eq_true'] at hr
      simp [List.takeWhile, List.dropWhile, hr]
  | cons c l ih =>
    simp only [List.all_cons, Bool.and_eq_true] at hl
    have := ih hl.2
    simp [List.takeWhile, List.dropWhile, hl.1, this.1, this.2]

theorem jfuel_pos (j : Json) : 1 ≤ jfuel j := by
  cases j <;> simp [jfuel]

theorem jfuelElems_pos (xs : List Json) : 1 ≤ jfuelElems xs := by
  cases xs <;> simp [jfuelElems] <;> omega

theorem jfuelMembers_pos (kvs : List (String × Json)) : 1 ≤ jfuelMembers kvs := by
  cases kvs with
  | nil => simp [jfuelMembers]
  | cons p kvs =>
    obtain ⟨k, v⟩ := p
    simp [jfuelMembers]
    omega

theorem numStart_facts (c : Char) (h : numStart c = true) :
    c ≠ 'n' ∧ c ≠ 't' ∧ c ≠ 'f' ∧ c ≠ '"' ∧ c ≠ '[' ∧ c ≠ '{' ∧ c ≠ ']' ∧ c ≠ '}' ∧
    numChar c = true := by
  simp only [numStart, Bool.or_eq_true, decide_eq_true_eq] at h
  rcases h with ((hd | rfl) | rfl) | rfl
  · refine ⟨?_, ?_, ?_, ?_, ?_, ?_, ?_, ?_, ?_⟩ <;>
      first
      | (rintro rfl; simp at hd)
      | simp [numChar, hd]
  · refine ⟨by decide, by decide, by decide, by decide, by decide, by decide,
      by decide, by decide, by decide⟩
  · refine ⟨by decide, by decide, by decide, by decide, by decide, by decide,
      by decide, by decide, by decide⟩
  · refine ⟨by decide, by decide, by decide, by decide, by decide, by decide,
      by decide, by decide, by decide⟩

theorem plainNum_ne_nil (tok : String) (h : plainNum tok = true) : tok.toList ≠ [] := by
  intro hc
  simp only [plainNum, Bool.and_eq_true] at h
  have := h.1.1
  simp only [numTokOk, Bool.or_eq_true, decide_eq_true_eq] at this
  rcases this with ((hg | rfl) | rfl) | rfl <;> simp_all [jsonNumOk]

theorem dumpJson_head (j : Json) (h : plainJson j = true) :
    ∃ c t, dumpJson j = c :: t ∧ c ≠ ']' ∧ c ≠ '}' := by
  cases j with
  | null => exact ⟨'n', _, rfl, by decide, by decide⟩
  | jbool b => cases b
               · exact ⟨'f', _, rfl, by decide, by decide⟩
               · exact ⟨'t', _, rfl, by decide, by decide⟩
  | jstr s => exact ⟨'"', _, rfl, by decide, by decide⟩
  | jarr xs => cases xs with
               | nil => exact ⟨'[', _, rfl, by decide, by decide⟩
               | cons x xs => exact ⟨'[', _, rfl, by decide, by decide⟩
  | jobj kvs => cases kvs with
                | nil => exact ⟨'{', _, rfl, by decide, by decide⟩
                | cons p kvs =>
                  obtain ⟨k, v⟩ := p
                  exact ⟨'{', _, rfl, by decide, by decide⟩
  | jnum tok =>
    simp only [plainJson] at h
    rcases hl : tok.toList with _ | ⟨c, t⟩
    · exact absurd hl (plainNum_ne_nil tok h)
    · refine ⟨c, t, by simp only [dumpJson]; exact hl, ?_, ?_⟩
      · have hs : numStart c = true := by
          simp only [plainNum, Bool.and_eq_true] at h
          have := h.2
          rw [hl] at this
          simpa using this
        exact (numStart_facts c hs).2.2.2.2.2.2.1
      · have hs : numStart c = true := by
          simp only [plainNum, Bool.and_eq_true] at h
          have := h.2
          rw [hl] at this
          simpa using this
        exact (numStart_facts c hs).2.2.2.2.2.2.2.1

set_option maxHeartbeats 1000000 in
theorem parseJ_num (n : Nat) (tok : String) (rest : List Char)
    (h : plainNum tok = true) (hr : headSafe rest = true) :
    parseJ (n + 1) (tok.toList ++ rest) = some (.jnum tok, rest) := by
  rcases hl : tok.toList with _ | ⟨c, t⟩
  · exact absurd hl (plainNum_ne_nil tok h)
  · have hall : (c :: t).all numChar = true := by
      simp only [plainNum, Bool.and_eq_true] at h
      have := h.1.2
      rw [hl] at this
      exact this
    have hs : numStart c = true := by
      simp only [plainNum, Bool.and_eq_true] at h
      have := h.2
      rw [hl] at this
      simpa using this
    have htok : numTokOk tok = true := by
      simp only [plainNum, Bool.and_eq_true] at h
      exact h.1.1
    obtain ⟨hn, ht, hf, hq, hlb, hlc, _, _, hnum⟩ := numStart_facts c hs
    have htw := takeWhile_all_append (c :: t) rest hall hr
    rw [List.cons_append]
    simp only [parseJ]
    simp only [if_neg hn, if_neg ht, if_neg hf, if_neg hq, if_neg hlb, if_neg hlc,
      if_pos hnum]
    rw [← List.cons_append, htw.1, htw.2]
    have hmk : String.mk (c :: t) = tok := by
      rw [← hl]
      cases tok
      rfl
    rw [hmk, if_pos htok]

theorem headSafe_dumpArrTail (xs : List Json) (rest : List Char) :
    headSafe (dumpArrTail xs ++ rest) = true := by
  cases xs <;> rfl

theorem headSafe_dumpObjTail (kvs : List (String × Json)) (rest : List Char) :
    headSafe (dumpObjTail kvs ++ rest) = true := by
  cases kvs with
  | nil => rfl
  | cons p kvs =>
    obtain ⟨k, v⟩ := p
    rfl

theorem parseJ_str (n : Nat) (s : String) (rest : List Char) (h : plainStr s = true) :
    parseJ (n + 1) (dumpStr s ++ rest) = some (.jstr s, rest) := by
  have e1 : dumpStr s ++ rest =
      '"' :: ((s.toList.map escapeChar).flatten ++ ('"' :: rest)) := by
    simp [dumpStr, List.append_assoc]
  rw [e1]
  rw [show ∀ tail, parseJ (n + 1) ('"' :: tail) =
      (parseStringBody tail).map (fun p => (Json.jstr (String.mk p.1), p.2)) from
    fun _ => rfl]
  rw [parseStringBody_plain s.toList rest h]
  rfl


set_option maxHeartbeats 1600000 in
theorem parse_dump (n : Nat) :
    (∀ j rest, jfuel j ≤ n → plainJson j = true → headSafe rest = true →
      parseJ n (dumpJson j ++ rest) = some (j, rest)) ∧
    (∀ x xs rest, jfuelElems (x :: xs) ≤ n → plainArr (x :: xs) = true →
      parseElems n (dumpJson x ++ (dumpArrTail xs ++ rest)) = some (x :: xs, rest)) ∧
    (∀ k v kvs rest, jfuelMembers ((k, v) :: kvs) ≤ n → plainObj ((k, v) :: kvs) = true →
      parseMembers n (dumpStr k ++ (':' :: (dumpJson v ++ (dumpObjTail kvs ++ rest)))) =
        some ((k, v) :: kvs, rest)) := by
  induction n with
  | zero =>
    refine ⟨fun j rest hf _ _ => absurd hf (by have := jfuel_pos j; omega),
            fun x xs rest hf _ => absurd hf (by have := jfuelElems_pos (x :: xs); omega),
            fun k v kvs rest hf _ =>
              absurd hf (by have := jfuelMembers_pos ((k, v) :: kvs); omega)⟩
  | succ n ih =>
    obtain ⟨ihP, ihQ, ihR⟩ := ih
    refine ⟨?_, ?_, ?_⟩
    · intro j rest hf hp hr
      cases j with
      | null => rfl
      | jbool b => cases b <;> rfl
      | jnum tok => exact parseJ_num n tok rest (by simpa [plainJson] using hp) hr
      | jstr s => exact parseJ_str n s rest (by simpa [plainJson] using hp)
      | jarr xs =>
        cases xs with
        | nil => rfl
        | cons x xs =>
          have hfe : jfuelElems (x :: xs) ≤ n := by
            simp only [jfuel] at hf
            omega
          have hpa : plainArr (x :: xs) = true := by simpa [plainJson] using hp
          have e1 : dumpJson (.jarr (x :: xs)) ++ rest =
              '[' :: (dumpJson x ++ (dumpArrTail xs ++ rest)) := by
            simp [dumpJson, List.append_assoc]
          rw [e1]
          rw [show ∀ tail, parseJ (n + 1) ('[' :: tail) =
              (match tail with
               | ']' :: r2 => some (Json.jarr [], r2)
               | _ => (parseElems n tail).map fun p => (Json.jarr p.1, p.2)) from
            fun _ => rfl]
          obtain ⟨c, t, hdx, hc1, _⟩ :=
            dumpJson_head x (by
              simp only [plainArr, Bool.and_eq_true] at hpa
              exact hpa.1)
          rw [hdx, List.cons_append]
          split
          · rename_i r2 heq
            have hch : c = ']' := by
              have := congrArg List.head? heq
              simpa using this
            exact absurd hch hc1
          · rw [← List.cons_append, ← hdx, ihQ x xs rest hfe hpa]
            rfl
      | jobj kvs =>
        cases kvs with
        | nil => rfl
        | cons p kvs =>
          obtain ⟨k, v⟩ := p
          have hfm : jfuelMembers ((k, v) :: kvs) ≤ n := by
            simp only [jfuel] at hf
            omega
          have hpo : plainObj ((k, v) :: kvs) = true := by simpa [plainJson] using hp
          have e1 : dumpJson (.jobj ((k, v) :: kvs)) ++ rest =
              '{' :: '"' :: ((k.toList.map escapeChar).flatten ++
                ('"' :: (':' :: (dumpJson v ++ (dumpObjTail kvs ++ rest))))) := by
            simp [dumpJson, dumpStr, List.append_assoc]
          rw [e1]
          rw [show ∀ r, parseJ (n + 1) ('{' :: '"' :: r) =
              (parseMembers n ('"' :: r)).map (fun p => (Json.jobj p.1, p.2)) from
            fun _ => rfl]
          rw [show ('"' :: ((k.toList.map escapeChar).flatten ++
                ('"' :: (':' :: (dumpJson v ++ (dumpObjTail kvs ++ rest)))))) =
              dumpStr k ++ (':' :: (dumpJson v ++ (dumpObjTail kvs ++ rest))) from by
            simp [dumpStr, List.append_assoc]]
          rw [ihR k v kvs rest hfm hpo]
          rfl
    · intro x xs rest hf hpa
      rw [show ∀ cs, parseElems (n + 1) cs =
          (match parseJ n cs with
           | none => none
           | some (j, r1) =>
             match r1 with
             | ',' :: r2 =>
               match parseElems n r2 with
               | some (js, r3) => some (j :: js, r3)
               | none => none
             | ']' :: r2 => some ([j], r2)
             | _ => none) from fun _ => rfl]
      have hppx : plainJson x = true := by
        simp only [plainArr, Bool.and_eq_true] at hpa
        exact hpa.1
      have hfx : jfuel x ≤ n := by
        simp only [jfuelElems] at hf
        omega
      rw [ihP x (dumpArrTail xs ++ rest) hfx hppx (headSafe_dumpArrTail xs rest)]
      try dsimp only []
      cases xs with
      | nil => rfl
      | cons y ys =>
        have hfyy : jfuelElems (y :: ys) ≤ n := by
          simp only [jfuelElems] at hf ⊢
          omega
        have hpyy : plainArr (y :: ys) = true := by
          simp only [plainArr, Bool.and_eq_true] at hpa ⊢
          exact hpa.2
        have e3 : dumpArrTail (y :: ys) ++ rest =
            ',' :: (dumpJson y ++ (dumpArrTail ys ++ rest)) := by
          simp [dumpArrTail, List.append_assoc]
        rw [e3]
        split
        · rename_i r2 heq
          rw [show r2 = dumpJson y ++ (dumpArrTail ys ++ rest) from by
            injection heq with h1 h2
            exact h2.symm]
          rw [ihQ y ys rest hfyy hpyy]
        · rename_i r2 heq
          exact absurd (congrArg List.head? heq) (by simp)
        · rename_i h1 h2
          exact absurd rfl (h1 (dumpJson y ++ (dumpArrTail ys ++ rest)))
    · intro k v kvs rest hf hpo
      have hpk : plainStr k = true := by
        simp only [plainObj, Bool.and_eq_true] at hpo
        exact hpo.1.1
      have hpv : plainJson v = true := by
        simp only [plainObj, Bool.and_eq_true] at hpo
        exact hpo.1.2
      have hfv : jfuel v ≤ n := by
        simp only [jfuelMembers] at hf
        omega
      have e2 : dumpStr k ++ (':' :: (dumpJson v ++ (dumpObjTail kvs ++ rest))) =
          '"' :: ((k.toList.map escapeChar).flatten ++
            ('"' :: (':' :: (dumpJson v ++ (dumpObjTail kvs ++ rest))))) := by
        simp [dumpStr, List.append_assoc]
      rw [e2]
      rw [show ∀ r0, parseMembers (n + 1) ('"' :: r0) =
          (match parseStringBody r0 with
           | none => none
           | some (key, r1) =>
             match r1 with
             | ':' :: r2 =>
               match parseJ n r2 with
               | none => none
               | some (w, r3) =>
                 match r3 with
                 | ',' :: r4 =>
                   match parseMembers n r4 with
                   | some (ms, r5) => some ((String.mk key, w) :: ms, r5)
                   | none => none
                 | '}' :: r4 => some ([(String.mk key, w)], r4)
                 | _ => none
             | _ => none) from fun _ => rfl]
      rw [parseStringBody_plain k.toList _ hpk]
      try dsimp only []
      rw [show String.mk k.toList = k from by cases k; rfl]
      split
      · rename_i r2 heq
        rw [show r2 = dumpJson v ++ (dumpObjTail kvs ++ rest) from by
          injection heq with h1 h2
          exact h2.symm]
        rw [ihP v (dumpObjTail kvs ++ rest) hfv hpv (headSafe_dumpObjTail kvs rest)]
        try dsimp only []
        cases kvs with
        | nil => rfl
        | cons q kvs2 =>
          obtain ⟨k2, v2⟩ := q
          have hfm2 : jfuelMembers ((k2, v2) :: kvs2) ≤ n := by
            simp only [jfuelMembers] at hf ⊢
            omega
          have hpo2 : plainObj ((k2, v2) :: kvs2) = true := by
            simp only [plainObj, Bool.and_eq_true] at hpo ⊢
            exact hpo.2
          have e3 : dumpObjTail ((k2, v2) :: kvs2) ++ rest =
              ',' :: (dumpStr k2 ++ (':' :: (dumpJson v2 ++ (dumpObjTail kvs2 ++ rest)))) := by
            simp [dumpObjTail, List.append_assoc]
          rw [e3]
          split
          · rename_i r4 heq4
            rw [show r4 = dumpStr k2 ++ (':' :: (dumpJson v2 ++ (dumpObjTail kvs2 ++ rest))) from by
              injection heq4 with h1 h2
              exact h2.symm]
            rw [ihR k2 v2 kvs2 rest hfm2 hpo2]
          · rename_i r4 heq4
            exact absurd (congrArg List.head? heq4) (by simp)
          · rename_i h1 h2
            exact absurd rfl
              (h1 (dumpStr k2 ++ (':' :: (dumpJson v2 ++ (dumpObjTail kvs2 ++ rest)))))
      · rename_i h1
        exact absurd rfl (h1 (dumpJson v ++ (dumpObjTail kvs ++ rest)))

theorem jfuel_le : ∀ j0 : Json, plainJson j0 = true → jfuel j0 ≤ 2 * (dumpJson j0).length := by
  intro j0
  induction j0 using jfuel.induct with
  | motive_2 kvs =>
    exact (plainObj kvs = true → jfuelMembers kvs + 1 ≤ 2 * (dumpObjTail kvs).length)
  | motive_3 xs =>
    exact (plainArr xs = true → jfuelElems xs + 1 ≤ 2 * (dumpArrTail xs).length)
  | case1 xs ih =>
    intro hp
    have hpa : plainArr xs = true := by simpa [plainJson] using hp
    have hx := ih hpa
    cases xs with
    | nil => simp [jfuel, jfuelElems, dumpJson]
    | cons x xs' =>
      simp only [jfuel, dumpJson, List.length_cons, List.length_append]
      simp only [dumpArrTail, List.length_cons, List.length_append] at hx
      omega
  | case2 kvs ih =>
    intro hp
    have hpo : plainObj kvs = true := by simpa [plainJson] using hp
    have hx := ih hpo
    cases kvs with
    | nil => simp [jfuel, jfuelMembers, dumpJson]
    | cons p kvs' =>
      obtain ⟨k, v⟩ := p
      simp only [jfuel, dumpJson, List.length_cons, List.length_append]
      simp only [dumpObjTail, List.length_cons, List.length_append] at hx
      omega
  | case3 t h1 h2 =>
    intro hp
    cases t with
    | jarr xs => exact absurd rfl (h1 xs)
    | jobj kvs => exact absurd rfl (h2 kvs)
    | null => simp [jfuel, dumpJson]
    | jbool b => cases b <;> simp [jfuel, dumpJson]
    | jstr s =>
      simp only [jfuel, dumpJson, dumpStr, List.length_cons, List.length_append]
      omega
    | jnum tok =>
      have : tok.toList ≠ [] := plainNum_ne_nil tok (by simpa [plainJson] using hp)
      have hlen : 1 ≤ tok.toList.length := by
        cases hl : tok.toList with
        | nil => exact absurd hl this
        | cons c t => simp
      simp only [jfuel, dumpJson]
      have he : (tok.toList).length = tok.length := rfl
      omega
  | case4 =>
    intro _
    simp [jfuelElems, dumpArrTail]
  | case5 v vs ih1 ih2 =>
    intro hp
    simp only [plainArr, Bool.and_eq_true] at hp
    have h1 := ih1 hp.1
    have h2 := ih2 (by
      cases vs with
      | nil => rfl
      | cons w ws => simpa [plainArr] using hp.2)
    simp only [jfuelElems, dumpArrTail, List.length_cons, List.length_append]
    omega
  | case6 =>
    intro _
    simp [jfuelMembers, dumpObjTail]
  | case7 k v rest ih1 ih2 =>
    intro hp
    simp only [plainObj, Bool.and_eq_true] at hp
    have h1 := ih1 hp.1.2
    have h2 := ih2 (by
      cases rest with
      | nil => rfl
      | cons q qs => simpa [plainObj] using hp.2)
    simp only [jfuelMembers, dumpObjTail, List.length_cons, List.length_append]
    omega

theorem isPrefixOf_self_append (l r : List Char) : l.isPrefixOf (l ++ r) = true := by
  induction l with
  | nil => simp [List.isPrefixOf]
  | cons c cs ih => simp [List.isPrefixOf, ih]

/-- C8: serializing a cache into the output artifact and re-parsing the
artifact's first assignment yields a structurally identical mapping —
the very same JSON object: same keys, same label/value pairs, same
order — for every plain cache (printable-ASCII strings without `"`/`\`
and number tokens in the emitted grammar, which covers everything the
program itself produces) and any second assignment. -/
theorem artifact_first_assignment_roundtrip
    (cache : List (String × (List String × List String))) (noDvJ : Json)
    (h : plainJson (cacheJsonOf cache) = true) :
    reparseFirst (writeArtifact (cacheJsonOf cache) noDvJ) =
      some (cacheJsonOf cache) := by
  have e0 : writeArtifact (cacheJsonOf cache) noDvJ =
      cacheMarker ++ (dumpJson (cacheJsonOf cache) ++ (';' :: '\n' ::
        ("var staticTempNoDv = ".toList ++ (dumpJson noDvJ ++ [';', '\n'])))) := by
    simp [writeArtifact, cacheMarker, List.append_assoc]
  have hfind : findSub cacheMarker (writeArtifact (cacheJsonOf cache) noDvJ) = some 0 := by
    rw [e0, findSub.eq_def, if_pos (isPrefixOf_self_append _ _)]
  simp only [reparseFirst, hfind]
  rw [show (0 + cacheMarker.length) = cacheMarker.length from Nat.zero_add _]
  conv_lhs => rw [e0]
  rw [List.drop_left]
  have hlen : (dumpJson (cacheJsonOf cache)).length ≤
      (writeArtifact (cacheJsonOf cache) noDvJ).length := by
    rw [e0]
    simp only [List.length_append]
    omega
  have hfuel : jfuel (cacheJsonOf cache) ≤
      2 * (writeArtifact (cacheJsonOf cache) noDvJ).length + 2 := by
    have := jfuel_le (cacheJsonOf cache) h
    omega
  have hmain := (parse_dump (2 * ((cacheMarker ++
      (dumpJson (cacheJsonOf cache) ++ ';' :: '\n' ::
        ("var staticTempNoDv = ".toList ++ (dumpJson noDvJ ++ [';', '\n'])))).length) + 2)).1
      (cacheJsonOf cache)
      (';' :: '\n' :: ("var staticTempNoDv = ".toList ++ (dumpJson noDvJ ++ [';', '\n'])))
      (by rw [← e0]; exact hfuel) h rfl
  rw [hmain]
  rfl

/-- Witness for C8: the scenario cache round-trips through the artifact
text. -/
theorem artifact_first_assignment_roundtrip_witness :
    plainJson (cacheJsonOf [("X1", (["2020-01-01"], ["5.5"]))]) = true ∧
    reparseFirst (writeArtifact (cacheJsonOf [("X1", (["2020-01-01"], ["5.5"]))])
        (.jarr [])) =
      some (cacheJsonOf [("X1", (["2020-01-01"], ["5.5"]))]) :=
  ⟨by decide,
   artifact_first_assignment_roundtrip [("X1", (["2020-01-01"], ["5.5"]))]
     (.jarr []) (by decide)⟩
